import Mathlib

/-!
Verification of the Fudicia front-end client (a React/TypeScript wizard for
fund-mandate sourcing, screening, risk analysis and reporting).

The development is a shallow embedding of the pure logic of the client:
JavaScript strings become `String`, JS arrays become `List`, absent or
`null`/`undefined` values become `Option`, JS objects with known fields become
structures, and React `useState` component state becomes an explicit state
record transformed by pure functions.  JS truthiness is made explicit by small
helper predicates (`truthyStr`, ...): an absent value and the empty string are
falsy, objects and arrays are always truthy.
-/

/-! ## JS-style helpers -/

/-- Truthiness of an optional JS string: `null`/`undefined` and `''` are falsy. -/
def truthyStr : Option String → Bool
  | none => false
  | some s => !(s == "")

/-- The JS `||` operator on optional strings: the first truthy operand wins. -/
def jsOrStr (a b : Option String) : Option String :=
  if truthyStr a then a else b

/-- The JS `\w` character class: ASCII letters, digits and underscore. -/
def jsWordChar (c : Char) : Bool :=
  ('a' ≤ c && c ≤ 'z') || ('A' ≤ c && c ≤ 'Z') || ('0' ≤ c && c ≤ '9') || c == '_'

/-- The JS `\s` character class (restricted to the ASCII whitespace the data uses). -/
def jsSpace (c : Char) : Bool := c.isWhitespace

/-! ## C9: `validateFile` (FundMandate page)

`validateFile` checks the uploaded file's MIME type and size.  A JS `File` is
modelled by its two fields read by the function. -/

/-- The two fields of a JS `File` object that `validateFile` reads. -/
structure JsFile where
  type : String
  size : Nat
deriving DecidableEq

/-- Embedding of `validateFile` (FundMandate): `allowedTypes = ['application/pdf']`,
`maxSize = 10 * 1024 * 1024`; returns the error string, or `none` for a valid file. -/
def validateFile (file : JsFile) : Option String :=
  let allowedTypes : List String := ["application/pdf"]
  let maxSize : Nat := 10 * 1024 * 1024
  if !(allowedTypes.contains file.type) then some "Only PDF files are allowed"
  else if file.size > maxSize then some "File size must be less than 10MB"
  else none

/-! ## C10: `escapeCSV` (inside `exportRiskAnalysisToCSV`) and an RFC-4180 decoder -/

/-- The effect of `value.replace(/"/g, '""')`: every double quote is doubled. -/
def doubleQuotesList : List Char → List Char
  | [] => []
  | c :: rest =>
    if c = '\"' then '\"' :: '\"' :: doubleQuotesList rest
    else c :: doubleQuotesList rest

/-- The condition of `escapeCSV`: `value.includes(',') || value.includes('"') ||
value.includes('\n')`. -/
def needsCSVQuoting (cs : List Char) : Bool :=
  cs.contains ',' || cs.contains '\"' || cs.contains '\n'

/-- Embedding of `escapeCSV` from `exportRiskAnalysisToCSV`: a field containing a
comma, a double quote or a newline is wrapped in double quotes with embedded
quotes doubled; any other field is returned unchanged. -/
def escapeCSV (value : String) : String :=
  if needsCSVQuoting value.toList then
    String.mk ('\"' :: (doubleQuotesList value.toList ++ ['\"']))
  else value

/-- Inverse of the quote doubling: a doubled double quote collapses to one. -/
def collapseQuotesList : List Char → List Char
  | [] => []
  | '\"' :: '\"' :: rest => '\"' :: collapseQuotesList rest
  | c :: rest => c :: collapseQuotesList rest

/-- RFC-4180 decoding of a single CSV field, following the claim's description:
strip the enclosing double quotes when present and collapse doubled quotes;
an unquoted field is returned unchanged. -/
def decodeCSVField (s : String) : String :=
  match s.toList with
  | '\"' :: rest =>
    if rest.getLast? = some '\"' then String.mk (collapseQuotesList rest.dropLast)
    else s
  | _ => s

theorem collapse_double (cs : List Char) :
    collapseQuotesList (doubleQuotesList cs) = cs := by
  induction cs with
  | nil => rfl
  | cons c rest ih =>
    by_cases h : c = '\"'
    · subst h
      simp [doubleQuotesList, collapseQuotesList, ih]
    · simp [doubleQuotesList, collapseQuotesList, h, ih]

theorem string_mk_toList (s : String) : String.mk s.toList = s := rfl

example : escapeCSV "ab" = "ab" := by decide
example : escapeCSV "a,b\"c" = "\"a,b\"\"c\"" := by decide
example : decodeCSVField (escapeCSV "a,b\"c") = "a,b\"c" := by decide

/-- C9: `validateFile` returns the type error exactly for non-PDF MIME types, the
size error for PDF files strictly larger than 10MB, and `null` exactly for PDF
files of at most `10 * 1024 * 1024` bytes. -/
theorem c9_validateFile_spec (f : JsFile) :
    (f.type ≠ "application/pdf" → validateFile f = some "Only PDF files are allowed") ∧
    (f.type = "application/pdf" → f.size > 10 * 1024 * 1024 →
      validateFile f = some "File size must be less than 10MB") ∧
    (validateFile f = none ↔ f.type = "application/pdf" ∧ f.size ≤ 10 * 1024 * 1024) := by
  refine ⟨fun h => ?_, fun h hs => ?_, ?_⟩
  · simp [validateFile, h]
  · simp [validateFile, h, hs]
  · constructor
    · intro h
      by_cases ht : f.type = "application/pdf"
      · refine ⟨ht, ?_⟩
        by_cases hs : f.size ≤ 10 * 1024 * 1024
        · exact hs
        · simp [validateFile, ht, Nat.lt_of_not_le hs] at h
      · simp [validateFile, ht] at h
    · rintro ⟨ht, hs⟩
      simp [validateFile, ht, Nat.not_lt_of_le hs]

theorem c9_validateFile_spec_witness :
    validateFile ⟨"text/plain", 5⟩ = some "Only PDF files are allowed" ∧
    validateFile ⟨"application/pdf", 10485761⟩ = some "File size must be less than 10MB" ∧
    validateFile ⟨"application/pdf", 123⟩ = none :=
  ⟨(c9_validateFile_spec ⟨"text/plain", 5⟩).1 (by decide),
   (c9_validateFile_spec ⟨"application/pdf", 10485761⟩).2.1 rfl (by decide),
   (c9_validateFile_spec ⟨"application/pdf", 123⟩).2.2.mpr ⟨rfl, by decide⟩⟩

/-- C10: the CSV field escaper leaves fields without comma, double quote or newline
unchanged, wraps any other field in double quotes with each embedded double quote
doubled, and RFC-4180 decoding of the escaped field recovers the original string. -/
theorem c10_escapeCSV_roundtrip (s : String) :
    (needsCSVQuoting s.toList = false → escapeCSV s = s) ∧
    (needsCSVQuoting s.toList = true →
      escapeCSV s = String.mk ('\"' :: (doubleQuotesList s.toList ++ ['\"']))) ∧
    decodeCSVField (escapeCSV s) = s := by
  refine ⟨fun h => ?_, fun h => ?_, ?_⟩
  · unfold escapeCSV; rw [h]; simp
  · unfold escapeCSV; rw [h]; simp
  · by_cases h : needsCSVQuoting s.toList = true
    · have he : escapeCSV s = String.mk ('\"' :: (doubleQuotesList s.toList ++ ['\"'])) := by
        unfold escapeCSV; rw [h]; simp
      rw [he]
      show decodeCSVField ⟨'\"' :: (doubleQuotesList s.toList ++ ['\"'])⟩ = s
      simp only [decodeCSVField, String.toList]
      simp [List.getLast?_concat, List.dropLast_concat, collapse_double, string_mk_toList]
    · have h0 : needsCSVQuoting s.toList = false := by simpa using h
      have he : escapeCSV s = s := by
        unfold escapeCSV; rw [h0]; simp
      rw [he]
      have hq : s.toList.contains '\"' = false := by
        unfold needsCSVQuoting at h0
        simp only [Bool.or_eq_false_iff] at h0
        exact h0.1.2
      unfold decodeCSVField
      rcases hl : s.toList with _ | ⟨c, rest⟩
      · rfl
      · have hc : c ≠ '\"' := by
          intro hcq
          rw [hl, hcq] at hq
          simp [List.contains_cons] at hq
        split
        · rename_i r heq
          rw [List.cons.injEq] at heq
          exact absurd heq.1 hc
        · rfl

/-! ## C4: the heterogeneous-shape normalizers `getRiskScores` and `getOverall`

A company record from the backend is modelled by the fields these normalizers
read.  A JS object used as a map (`parameter_analysis`) is modelled as an
association list, matching `Object.entries` insertion order. -/

/-- One entry value of `parameter_analysis`: the status/reason spellings probed by
`getRiskScores` (`status`/`Status`/`status_text`, `reason`/`Reason`/`reason_text`). -/
structure PAVal where
  status : Option String := none
  Status : Option String := none
  status_text : Option String := none
  reason : Option String := none
  Reason : Option String := none
  reason_text : Option String := none
deriving DecidableEq

/-- A normalized risk-score record produced (or passed through) by `getRiskScores`. -/
structure RiskScoreRec where
  category : String
  status : String
  reason : String
deriving DecidableEq

/-- The company fields read by `getRiskScores`, `getOverall` and the risk summary.
`none` models an absent (or, for `risk_scores`, non-array) field. -/
structure Company where
  risk_scores : Option (List RiskScoreRec) := none
  parameter_analysis : Option (List (String × PAVal)) := none
  parameterAnalysis : Option (List (String × PAVal)) := none
  overall_result : Option String := none
  overallResult : Option String := none
  overall_status : Option String := none
  overallStatus : Option String := none
  overall : Option String := none
  company_name : String := ""
deriving DecidableEq

/-- The object chosen by `company.parameter_analysis || company.parameterAnalysis
|| {}` (an object, even empty, is truthy). -/
def paEntries (c : Company) : List (String × PAVal) :=
  match c.parameter_analysis with
  | some pa => pa
  | none =>
    match c.parameterAnalysis with
    | some pa => pa
    | none => []

/-- The record built from one `parameter_analysis` entry:
`{category, status: val?.status ?? val?.Status ?? val?.status_text ?? '', reason: ...}`. -/
def paRecord (p : String × PAVal) : RiskScoreRec :=
  { category := p.1,
    status := ((p.2.status.orElse fun _ => p.2.Status).orElse fun _ => p.2.status_text).getD "",
    reason := ((p.2.reason.orElse fun _ => p.2.Reason).orElse fun _ => p.2.reason_text).getD "" }

/-- Embedding of `getRiskScores`: pass `risk_scores` through when it is a non-empty
array, otherwise map `parameter_analysis` (or `parameterAnalysis`) entries; `[]`
for a null/undefined company. -/
def getRiskScores (company : Option Company) : List RiskScoreRec :=
  match company with
  | none => []
  | some c =>
    match c.risk_scores with
    | some rs => if 0 < rs.length then rs else (paEntries c).map paRecord
    | none => (paEntries c).map paRecord

/-- Embedding of `getOverall`: the JS `||` chain
`overall_result || overallResult || overall_status || overallStatus || overall || ''`. -/
def getOverall (company : Option Company) : String :=
  match company with
  | none => ""
  | some c =>
    (jsOrStr (jsOrStr (jsOrStr (jsOrStr c.overall_result c.overallResult)
      c.overall_status) c.overallStatus) c.overall).getD ""

/-- The claim-side reading of `getOverall`: the first truthy value in the list of
the five overall fields, and the empty string when none is truthy. -/
def firstTruthyString : List (Option String) → String
  | [] => ""
  | a :: rest => if truthyStr a then a.getD "" else firstTruthyString rest

theorem truthyStr_false_getD (a : Option String) (h : truthyStr a = false) :
    a.getD "" = "" := by
  rcases a with _ | s
  · rfl
  · simp [truthyStr] at h
    simp [h]

/-- A concrete company used by the C4 witness: an empty `risk_scores` array and one
`parameter_analysis` entry carrying only the `Status` spelling. -/
def paWitnessCompany : Company :=
  { risk_scores := some [], parameter_analysis := some [("liquidity", { Status := some "HIGH" })] }

theorem jsOrStr_truthy (a b : Option String) :
    truthyStr (jsOrStr a b) = (truthyStr a || truthyStr b) := by
  unfold jsOrStr
  by_cases h : truthyStr a = true <;> simp [h]

theorem jsOrStr_getD (a b : Option String) :
    (jsOrStr a b).getD "" = if truthyStr a then a.getD "" else b.getD "" := by
  unfold jsOrStr
  by_cases h : truthyStr a = true <;> simp [h]

/-- C4: `getRiskScores` returns `risk_scores` whenever it is a non-empty array,
otherwise one `{category, status, reason}` record per `parameter_analysis` (or
`parameterAnalysis`) entry with the fallback spellings and `''` defaults, and
`[]` for a null company; `getOverall` returns the first truthy value among the
five overall fields and `''` when none is truthy. -/
theorem c4_normalizers_spec :
    getRiskScores none = [] ∧
    (∀ (c : Company) (rs : List RiskScoreRec), c.risk_scores = some rs → rs ≠ [] →
      getRiskScores (some c) = rs) ∧
    (∀ c : Company, (∀ rs, c.risk_scores = some rs → rs = []) →
      getRiskScores (some c) = (paEntries c).map fun p =>
        { category := p.1,
          status := ((p.2.status.orElse fun _ => p.2.Status).orElse fun _ =>
            p.2.status_text).getD "",
          reason := ((p.2.reason.orElse fun _ => p.2.Reason).orElse fun _ =>
            p.2.reason_text).getD "" }) ∧
    (∀ c : Company, getOverall (some c) = firstTruthyString
      [c.overall_result, c.overallResult, c.overall_status, c.overallStatus, c.overall]) ∧
    getOverall none = "" := by
  refine ⟨rfl, fun c rs hrs hne => ?_, fun c hrs => ?_, fun c => ?_, rfl⟩
  · have : 0 < rs.length := List.length_pos.mpr hne
    simp [getRiskScores, hrs, this]
  · rcases h : c.risk_scores with _ | rs
    · simp [getRiskScores, h, paRecord]
    · have : rs = [] := hrs rs h
      subst this
      simp [getRiskScores, h, paRecord]
  · simp only [getOverall, firstTruthyString, jsOrStr_getD, jsOrStr_truthy]
    by_cases h1 : truthyStr c.overall_result <;>
      by_cases h2 : truthyStr c.overallResult <;>
        by_cases h3 : truthyStr c.overall_status <;>
          by_cases h4 : truthyStr c.overallStatus <;>
            by_cases h5 : truthyStr c.overall <;>
              simp [h1, h2, h3, h4, h5, truthyStr_false_getD]

theorem c4_normalizers_spec_witness :
    getRiskScores (some { risk_scores := some [⟨"cat", "ok", "r"⟩] }) = [⟨"cat", "ok", "r"⟩] ∧
    getRiskScores (some paWitnessCompany) = [⟨"liquidity", "HIGH", ""⟩] :=
  ⟨(c4_normalizers_spec.2.1 _ [⟨"cat", "ok", "r"⟩] rfl (by decide)),
   by
    have h := c4_normalizers_spec.2.2.1 paWitnessCompany
      (by intro rs hrs; injection hrs with h; exact h.symm)
    rw [h]; rfl⟩

theorem c10_escapeCSV_roundtrip_witness :
    escapeCSV "plain text" = "plain text" ∧
    escapeCSV "a,b\"c" = String.mk ('\"' :: (doubleQuotesList "a,b\"c".toList ++ ['\"'])) ∧
    decodeCSVField (escapeCSV "say \"hi\",\nbye") = "say \"hi\",\nbye" :=
  ⟨(c10_escapeCSV_roundtrip "plain text").1 (by decide),
   (c10_escapeCSV_roundtrip "a,b\"c").2.1 (by decide),
   (c10_escapeCSV_roundtrip "say \"hi\",\nbye").2.2⟩

/-! ## The SourcingAgent wizard state and WebSocket payloads

The SourcingAgent page drives a four-step wizard (0 = Sourcing, 1 = Screening,
2 = Risk Analysis, 3 = Reporting).  Its `useState` variables that the verified
logic touches become the fields of `WizState`; the JSON events delivered by the
step WebSockets become `WsEvent`. -/

/-- Nested token totals, as in `tokens_used?.totals?.total_tokens`. -/
structure TokenTotals where
  total_tokens : Option Nat := none
deriving DecidableEq

/-- A `tokens_used` object with its optional `totals` wrapper. -/
structure TokensUsed where
  totals : Option TokenTotals := none
deriving DecidableEq

/-- A `token_usage` object, read as `token_usage?.completion_tokens`. -/
structure TokenUsage where
  completion_tokens : Option Nat := none
deriving DecidableEq

/-- The `result` object of a sourcing `analysis_complete` event. -/
structure SourcingResult where
  qualified : Option (List Company) := none
deriving DecidableEq

/-- The object payload of a screening `final_result` event, spread into the
screening response: the fields the client reads from it. -/
structure ScreeningContent where
  company_details : Option (List Company) := none
  tokens_used : Option TokensUsed := none
deriving DecidableEq

/-- The `content` field of a streamed event: either a string (thinking events) or
the final-result object.  A JS string is falsy when empty; an object is truthy. -/
inductive ContentVal where
  | str (s : String)
  | obj (o : ScreeningContent)
deriving DecidableEq

/-- JS truthiness of an optional `content` value. -/
def truthyContent : Option ContentVal → Bool
  | none => false
  | some (ContentVal.str s) => !(s == "")
  | some (ContentVal.obj _) => true

/-- A parsed WebSocket JSON event: the fields any of the four step handlers read. -/
structure WsEvent where
  type : Option String := none
  content : Option ContentVal := none
  message : Option String := none
  result : Option SourcingResult := none
  results : Option (List Company) := none
  tokens_used : Option TokensUsed := none
  token_usage : Option TokenUsage := none
  file_path : Option String := none
deriving DecidableEq

/-- The transformed sourcing response: `{ companies: { qualified, tokens: { totals:
{ total_tokens } } } }`, held in the `filterResponse` state. -/
structure FilterCompanies where
  qualified : Option (List Company) := none
  tokens : Option TokensUsed := none
deriving DecidableEq

/-- The `filterResponse` state value. -/
structure FilterResponse where
  companies : Option FilterCompanies := none
deriving DecidableEq

/-- The `screeningResponse` state value: the spread `final_result` content plus the
collected `agent_thinking` strings and a flattened `tokens_used` count. -/
structure ScreeningResponse where
  company_details : Option (List Company) := none
  agent_thinking : List String := []
  tokens_used : Nat := 0
deriving DecidableEq

/-- The `summary` object built from the risk `session_complete` results. -/
structure RiskSummary where
  total : Nat := 0
  passed : Nat := 0
deriving DecidableEq

/-- The `riskAnalysisResponse` state value. -/
structure RiskResponse where
  all_companies : Option (List Company) := none
  summary : RiskSummary := {}
  tokens_used : Nat := 0
deriving DecidableEq

/-- The SourcingAgent component state used by the verified logic.  The three
parameter lists are the props-derived `sourcingList`, `screeningList` and
`riskAnalysisList`; `streamed0..streamed3` are the entries of
`streamedEventsByStep`; `completedSteps` is the JS `Set<number>`. -/
structure WizState where
  sourcingList : List (String × String) := []
  screeningList : List (String × String) := []
  riskAnalysisList : List (String × String) := []
  currentStep : Nat := 0
  completedSteps : Finset Nat := ∅
  isSubmitting : Bool := false
  filterResponse : Option FilterResponse := none
  screeningResponse : Option ScreeningResponse := none
  riskAnalysisResponse : Option RiskResponse := none
  reportResponse : Option WsEvent := none
  reportFilePath : Option String := none
  showStreamingPanel : Bool := false
  showAccordionStep : Option Nat := none
  expandedScreeningResults : List (Nat × Bool) := []
  selectedCompanies : List (Nat × Bool) := []
  streamed0 : List WsEvent := []
  streamed1 : List WsEvent := []
  streamed2 : List WsEvent := []
  streamed3 : List WsEvent := []

/-! ## C1: the step-gating predicates `canProceedStep` and `canNavigateToStep` -/

/-- Embedding of `canProceedStep`: the switch on `currentStep`; each of cases 0-2
is the truthy chain down to a non-empty list, case 3 is `true`, default `false`. -/
def canProceedStep (st : WizState) : Bool :=
  if st.currentStep = 0 then
    match (st.filterResponse.bind fun r => r.companies).bind fun c => c.qualified with
    | some q => decide (q.length > 0)
    | none => false
  else if st.currentStep = 1 then
    match st.screeningResponse.bind fun r => r.company_details with
    | some d => decide (d.length > 0)
    | none => false
  else if st.currentStep = 2 then
    match st.riskAnalysisResponse.bind fun r => r.all_companies with
    | some a => decide (a.length > 0)
    | none => false
  else if st.currentStep = 3 then true
  else false

/-- Embedding of `canNavigateToStep`: step 0 always; steps 1-3 need the parameter
list non-empty and the previous step's optional-chained response field present
(an array is truthy even when empty). -/
def canNavigateToStep (st : WizState) (index : Nat) : Bool :=
  if index = 0 then true
  else if index = 1 then
    decide (st.sourcingList.length > 0) &&
      ((st.filterResponse.bind fun r => r.companies).bind fun c => c.qualified).isSome
  else if index = 2 then
    decide (st.screeningList.length > 0) &&
      (st.screeningResponse.bind fun r => r.company_details).isSome
  else if index = 3 then
    decide (st.riskAnalysisList.length > 0) &&
      (st.riskAnalysisResponse.bind fun r => r.all_companies).isSome
  else false

/-- C1: `canNavigateToStep` is true for step 0 always, for steps 1-3 exactly when
the parameter list is non-empty and the previous step's response list is present,
and false for every other index; `canProceedStep` at steps 0-2 is true exactly
when the step's response list exists and is non-empty, and at step 3 always. -/
theorem c1_step_gating (st : WizState) :
    canNavigateToStep st 0 = true ∧
    (canNavigateToStep st 1 = true ↔ st.sourcingList ≠ [] ∧
      ∃ q, ((st.filterResponse.bind fun r => r.companies).bind fun c => c.qualified) = some q) ∧
    (canNavigateToStep st 2 = true ↔ st.screeningList ≠ [] ∧
      ∃ d, (st.screeningResponse.bind fun r => r.company_details) = some d) ∧
    (canNavigateToStep st 3 = true ↔ st.riskAnalysisList ≠ [] ∧
      ∃ a, (st.riskAnalysisResponse.bind fun r => r.all_companies) = some a) ∧
    (∀ i, 4 ≤ i → canNavigateToStep st i = false) ∧
    (st.currentStep = 0 → (canProceedStep st = true ↔
      ∃ q, ((st.filterResponse.bind fun r => r.companies).bind fun c => c.qualified) = some q ∧
        q ≠ [])) ∧
    (st.currentStep = 1 → (canProceedStep st = true ↔
      ∃ d, (st.screeningResponse.bind fun r => r.company_details) = some d ∧ d ≠ [])) ∧
    (st.currentStep = 2 → (canProceedStep st = true ↔
      ∃ a, (st.riskAnalysisResponse.bind fun r => r.all_companies) = some a ∧ a ≠ [])) ∧
    (st.currentStep = 3 → canProceedStep st = true) := by
  refine ⟨rfl, ?_, ?_, ?_, fun i hi => ?_, fun h => ?_, fun h => ?_, fun h => ?_, fun h => ?_⟩
  · simp [canNavigateToStep, Option.isSome_iff_exists, ← List.length_pos, And.comm]
  · simp [canNavigateToStep, Option.isSome_iff_exists, ← List.length_pos, And.comm]
  · simp [canNavigateToStep, Option.isSome_iff_exists, ← List.length_pos, And.comm]
  · have h0 : i ≠ 0 := by omega
    have h1 : i ≠ 1 := by omega
    have h2 : i ≠ 2 := by omega
    have h3 : i ≠ 3 := by omega
    simp [canNavigateToStep, h0, h1, h2, h3]
  · rcases hq : (st.filterResponse.bind fun r => r.companies).bind fun c => c.qualified with
      _ | q <;> simp [canProceedStep, h, hq, List.length_pos]
  · rcases hd : st.screeningResponse.bind fun r => r.company_details with
      _ | d <;> simp [canProceedStep, h, hd, List.length_pos]
  · rcases ha : st.riskAnalysisResponse.bind fun r => r.all_companies with
      _ | a <;> simp [canProceedStep, h, ha, List.length_pos]
  · simp [canProceedStep, h]

/-! ## C7: `handleResetStep` cascades -/

/-- Embedding of `resetScreening`. -/
def resetScreening (st : WizState) : WizState :=
  { st with screeningResponse := none, expandedScreeningResults := [], selectedCompanies := [] }

/-- Embedding of `resetRiskAnalysis`. -/
def resetRiskAnalysis (st : WizState) : WizState :=
  { st with riskAnalysisResponse := none }

/-- Embedding of `handleResetStep`: resets the given step and every later one,
then moves `currentStep` to the reset step and hides the accordion. -/
def handleResetStep (st : WizState) (index : Nat) : WizState :=
  let st1 :=
    if index = 0 then
      { st with filterResponse := none, screeningResponse := none,
                riskAnalysisResponse := none, reportResponse := none, reportFilePath := none,
                isSubmitting := false, showStreamingPanel := false,
                streamed0 := [], streamed1 := [], streamed2 := [], streamed3 := [],
                selectedCompanies := [], expandedScreeningResults := [],
                completedSteps := (((st.completedSteps.erase 0).erase 1).erase 2).erase 3 }
    else if index = 1 then
      let st2 := resetScreening st
      { st2 with riskAnalysisResponse := none, reportResponse := none, reportFilePath := none,
                 showStreamingPanel := false,
                 streamed1 := [], streamed2 := [], streamed3 := [],
                 completedSteps := ((st.completedSteps.erase 1).erase 2).erase 3 }
    else if index = 2 then
      let st2 := resetRiskAnalysis st
      { st2 with reportResponse := none, reportFilePath := none,
                 showStreamingPanel := false,
                 streamed2 := [], streamed3 := [],
                 completedSteps := (st.completedSteps.erase 2).erase 3 }
    else st
  { st1 with currentStep := index, showAccordionStep := none }

/-- C7: resetting step `i ∈ {0,1,2}` clears the responses, report file path,
streamed events and completed marks of step `i` and all later steps, sets
`currentStep := i`, and leaves the responses, streamed events and completed
marks of earlier steps unchanged. -/
theorem c7_handleResetStep_cascade (st : WizState) :
    ((handleResetStep st 0).filterResponse = none ∧
     (handleResetStep st 0).screeningResponse = none ∧
     (handleResetStep st 0).riskAnalysisResponse = none ∧
     (handleResetStep st 0).reportResponse = none ∧
     (handleResetStep st 0).reportFilePath = none ∧
     (handleResetStep st 0).streamed0 = [] ∧ (handleResetStep st 0).streamed1 = [] ∧
     (handleResetStep st 0).streamed2 = [] ∧ (handleResetStep st 0).streamed3 = [] ∧
     (handleResetStep st 0).currentStep = 0 ∧
     (∀ j, j ∈ (handleResetStep st 0).completedSteps ↔
        j ∈ st.completedSteps ∧ j ≠ 0 ∧ j ≠ 1 ∧ j ≠ 2 ∧ j ≠ 3)) ∧
    ((handleResetStep st 1).filterResponse = st.filterResponse ∧
     (handleResetStep st 1).streamed0 = st.streamed0 ∧
     (handleResetStep st 1).screeningResponse = none ∧
     (handleResetStep st 1).riskAnalysisResponse = none ∧
     (handleResetStep st 1).reportResponse = none ∧
     (handleResetStep st 1).reportFilePath = none ∧
     (handleResetStep st 1).streamed1 = [] ∧ (handleResetStep st 1).streamed2 = [] ∧
     (handleResetStep st 1).streamed3 = [] ∧
     (handleResetStep st 1).currentStep = 1 ∧
     (∀ j, j ∈ (handleResetStep st 1).completedSteps ↔
        j ∈ st.completedSteps ∧ j ≠ 1 ∧ j ≠ 2 ∧ j ≠ 3)) ∧
    ((handleResetStep st 2).filterResponse = st.filterResponse ∧
     (handleResetStep st 2).screeningResponse = st.screeningResponse ∧
     (handleResetStep st 2).streamed0 = st.streamed0 ∧
     (handleResetStep st 2).streamed1 = st.streamed1 ∧
     (handleResetStep st 2).riskAnalysisResponse = none ∧
     (handleResetStep st 2).reportResponse = none ∧
     (handleResetStep st 2).reportFilePath = none ∧
     (handleResetStep st 2).streamed2 = [] ∧ (handleResetStep st 2).streamed3 = [] ∧
     (handleResetStep st 2).currentStep = 2 ∧
     (∀ j, j ∈ (handleResetStep st 2).completedSteps ↔
        j ∈ st.completedSteps ∧ j ≠ 2 ∧ j ≠ 3)) := by
  refine ⟨⟨rfl, rfl, rfl, rfl, rfl, rfl, rfl, rfl, rfl, rfl, fun j => ?_⟩,
          ⟨rfl, rfl, rfl, rfl, rfl, rfl, rfl, rfl, rfl, rfl, fun j => ?_⟩,
          ⟨rfl, rfl, rfl, rfl, rfl, rfl, rfl, rfl, rfl, rfl, fun j => ?_⟩⟩ <;>
    simp [handleResetStep, resetScreening, resetRiskAnalysis, Finset.mem_erase] <;> tauto

/-! ## The WebSocket `onmessage`, `onerror` and `onclose` handlers

Each step's handler becomes a pure function from the incoming parsed event and
the component state to the new state, paired with a `Bool` that records whether
the handler called `ws.close()`.  The screening handler additionally threads the
closure-captured `agentThinkingSteps` array. -/

/-- JS `trim()` on a character list. -/
def trimChars (cs : List Char) : List Char :=
  ((cs.dropWhile jsSpace).reverse.dropWhile jsSpace).reverse

/-- The character class of the screening handler's first `replace`: the code units
of the (mojibake) emoji prefix literal in the source. -/
def screeningEmojiChar (c : Char) : Bool :=
  [0x8f, 0xa4, 0xa7, 0xa8, 0xad, 0xb3, 0xb8, 0xe2, 0xef, 0xf0,
   0x153, 0x160, 0x161, 0x178, 0x2013, 0x2019, 0x201c, 0x201d,
   0x2026, 0x2039, 0x2122].contains c.val.toNat

/-- The screening handler's `^STEP \d+:\s*` (case-insensitive) label strip:
`STEP`, one space, digits, a colon, then whitespace. -/
def stripStepSpaceLabel (cs : List Char) : List Char :=
  match cs with
  | s :: t :: e :: p :: sp :: rest =>
    if s.toLower == 's' && t.toLower == 't' && e.toLower == 'e' && p.toLower == 'p'
        && sp == ' ' then
      if (rest.takeWhile Char.isDigit).isEmpty then cs
      else
        match rest.dropWhile Char.isDigit with
        | c :: r2 => if c == ':' then r2.dropWhile jsSpace else cs
        | [] => cs
    else cs
  | _ => cs

/-- The screening handler's content clean-up: strip one leading emoji-class
character (and following whitespace), strip a `STEP n:` label, then trim. -/
def screenCleanContent (s : String) : String :=
  let cs1 := match s.toList with
    | c :: rest => if screeningEmojiChar c then rest.dropWhile jsSpace else s.toList
    | [] => []
  String.mk (trimChars (stripStepSpaceLabel cs1))

/-- Embedding of the sourcing `ws.onmessage` handler: append the event to step 0's
stream; on `analysis_complete` with a `result`, store the transformed response,
mark step 0 completed, hide the panel and close the socket. -/
def handleSourceCompaniesOnMessage (st : WizState) (eventData : WsEvent) : WizState × Bool :=
  let st := { st with streamed0 := st.streamed0 ++ [eventData] }
  if eventData.type == some "analysis_complete" then
    match eventData.result with
    | some r =>
      let totalTokens : Nat :=
        ((eventData.tokens_used.bind fun t => t.totals).bind fun t => t.total_tokens).getD 0
      let transformedCompanies : FilterCompanies :=
        { qualified := some (r.qualified.getD []),
          tokens := some { totals := some { total_tokens := some totalTokens } } }
      let transformedResponse : FilterResponse := { companies := some transformedCompanies }
      ({ st with filterResponse := some transformedResponse,
                 completedSteps := insert 0 st.completedSteps,
                 showStreamingPanel := false }, true)
    | none => (st, false)
  else (st, false)

/-- Embedding of the screening `ws.onmessage` handler: append the event to step 1's
stream; collect cleaned string thinking content; on `final_result` with truthy
content, store the spread content with the collected thinking, expand the first
result, mark step 1 completed, hide the panel and close the socket. -/
def handleScreenCompaniesOnMessage (st : WizState) (agentThinkingSteps : List String)
    (eventData : WsEvent) : WizState × List String × Bool :=
  let st := { st with streamed1 := st.streamed1 ++ [eventData] }
  let agentThinkingSteps :=
    if truthyStr eventData.type && truthyContent eventData.content then
      match eventData.content with
      | some (ContentVal.str sc) =>
        let cleanContent := screenCleanContent sc
        if cleanContent == "" then agentThinkingSteps else agentThinkingSteps ++ [cleanContent]
      | _ => agentThinkingSteps
    else agentThinkingSteps
  if eventData.type == some "final_result" && truthyContent eventData.content then
    let contentObj : ScreeningContent :=
      match eventData.content with
      | some (ContentVal.obj o) => o
      | _ => {}
    let responseWithThinking : ScreeningResponse :=
      { company_details := contentObj.company_details,
        agent_thinking := agentThinkingSteps,
        tokens_used := ((contentObj.tokens_used.bind fun t => t.totals).bind fun t =>
          t.total_tokens).getD 0 }
    ({ st with screeningResponse := some responseWithThinking,
               expandedScreeningResults := [(0, true)],
               completedSteps := insert 1 st.completedSteps,
               showStreamingPanel := false }, agentThinkingSteps, true)
  else (st, agentThinkingSteps, false)

/-- Embedding of the risk-analysis `ws.onmessage` handler: append the event to step
2's stream; on `session_complete` with `results`, store the raw results with a
SAFE-count summary and the completion token count, mark step 2 completed, hide
the panel and close the socket. -/
def handleAnalyzeRiskOnMessage (st : WizState) (eventData : WsEvent) : WizState × Bool :=
  let st := { st with streamed2 := st.streamed2 ++ [eventData] }
  if eventData.type == some "session_complete" then
    match eventData.results with
    | some rawResults =>
      let riskTokens := (eventData.token_usage.bind fun t => t.completion_tokens).getD 0
      let summary : RiskSummary :=
        { total := rawResults.length,
          passed := (rawResults.filter fun c =>
            ((jsOrStr c.overall_result c.overall_status).getD "").toUpper == "SAFE").length }
      let finalResponse : RiskResponse :=
        { all_companies := some rawResults, summary := summary, tokens_used := riskTokens }
      ({ st with riskAnalysisResponse := some finalResponse,
                 completedSteps := insert 2 st.completedSteps,
                 showStreamingPanel := false }, true)
    | none => (st, false)
  else (st, false)

/-- Embedding of the report `ws.onmessage` handler: append the event to step 3's
stream; on `report_complete`, store the event as the report response, record the
file path (`file_path || null`), mark step 3 completed, stop submitting and
close the socket. -/
def handleGenerateReportOnMessage (st : WizState) (eventData : WsEvent) : WizState × Bool :=
  let st := { st with streamed3 := st.streamed3 ++ [eventData] }
  if eventData.type == some "report_complete" then
    ({ st with reportResponse := some eventData,
               reportFilePath := if truthyStr eventData.file_path then eventData.file_path
                 else none,
               completedSteps := insert 3 st.completedSteps,
               isSubmitting := false }, true)
  else (st, false)

/-- Embedding of the sourcing `ws.onerror` handler: hide the streaming panel only
(the returned `Bool` records that `ws.close()` is not called). -/
def handleSourceCompaniesOnError (st : WizState) : WizState × Bool :=
  ({ st with showStreamingPanel := false }, false)

/-- Embedding of the screening `ws.onerror` handler: hide the streaming panel only. -/
def handleScreenCompaniesOnError (st : WizState) : WizState × Bool :=
  ({ st with showStreamingPanel := false }, false)

/-- Embedding of the risk-analysis `ws.onerror` handler: it only logs and toasts,
changing no state. -/
def handleAnalyzeRiskOnError (st : WizState) : WizState × Bool :=
  (st, false)

/-- Embedding of the report `ws.onerror` handler: reset `isSubmitting` and hide the
streaming panel. -/
def handleGenerateReportOnError (st : WizState) : WizState × Bool :=
  ({ st with isSubmitting := false, showStreamingPanel := false }, false)

/-- Embedding of the sourcing `ws.onclose` handler. -/
def handleSourceCompaniesOnClose (st : WizState) : WizState :=
  { st with showStreamingPanel := false, isSubmitting := false }

/-- Embedding of the screening `ws.onclose` handler. -/
def handleScreenCompaniesOnClose (st : WizState) : WizState :=
  { st with showStreamingPanel := false, isSubmitting := false }

/-- Embedding of the risk-analysis `ws.onclose` handler. -/
def handleAnalyzeRiskOnClose (st : WizState) : WizState :=
  { st with showStreamingPanel := false, isSubmitting := false }

/-- Embedding of the report `ws.onclose` handler. -/
def handleGenerateReportOnClose (st : WizState) : WizState :=
  { st with showStreamingPanel := false, isSubmitting := false }

/-- C2: each step's response is stored, the step index is added to
`completedSteps`, and the socket is closed, exactly when that step's
distinguished completion event arrives (`analysis_complete` with a `result`,
`final_result` with truthy content, `session_complete` with `results`,
`report_complete`); any other message leaves that step's response and
`completedSteps` unchanged and the socket open. -/
theorem c2_completion_events (st : WizState) (th : List String) (e : WsEvent) :
    ((e.type = some "analysis_complete" ∧ e.result.isSome →
        (handleSourceCompaniesOnMessage st e).1.filterResponse.isSome = true ∧
        0 ∈ (handleSourceCompaniesOnMessage st e).1.completedSteps ∧
        (handleSourceCompaniesOnMessage st e).2 = true) ∧
     (¬(e.type = some "analysis_complete" ∧ e.result.isSome) →
        (handleSourceCompaniesOnMessage st e).1.filterResponse = st.filterResponse ∧
        (handleSourceCompaniesOnMessage st e).1.completedSteps = st.completedSteps ∧
        (handleSourceCompaniesOnMessage st e).2 = false)) ∧
    ((e.type = some "final_result" ∧ truthyContent e.content = true →
        (handleScreenCompaniesOnMessage st th e).1.screeningResponse.isSome = true ∧
        1 ∈ (handleScreenCompaniesOnMessage st th e).1.completedSteps ∧
        (handleScreenCompaniesOnMessage st th e).2.2 = true) ∧
     (¬(e.type = some "final_result" ∧ truthyContent e.content = true) →
        (handleScreenCompaniesOnMessage st th e).1.screeningResponse = st.screeningResponse ∧
        (handleScreenCompaniesOnMessage st th e).1.completedSteps = st.completedSteps ∧
        (handleScreenCompaniesOnMessage st th e).2.2 = false)) ∧
    ((e.type = some "session_complete" ∧ e.results.isSome →
        (handleAnalyzeRiskOnMessage st e).1.riskAnalysisResponse.isSome = true ∧
        2 ∈ (handleAnalyzeRiskOnMessage st e).1.completedSteps ∧
        (handleAnalyzeRiskOnMessage st e).2 = true) ∧
     (¬(e.type = some "session_complete" ∧ e.results.isSome) →
        (handleAnalyzeRiskOnMessage st e).1.riskAnalysisResponse = st.riskAnalysisResponse ∧
        (handleAnalyzeRiskOnMessage st e).1.completedSteps = st.completedSteps ∧
        (handleAnalyzeRiskOnMessage st e).2 = false)) ∧
    ((e.type = some "report_complete" →
        (handleGenerateReportOnMessage st e).1.reportResponse = some e ∧
        3 ∈ (handleGenerateReportOnMessage st e).1.completedSteps ∧
        (handleGenerateReportOnMessage st e).2 = true) ∧
     (e.type ≠ some "report_complete" →
        (handleGenerateReportOnMessage st e).1.reportResponse = st.reportResponse ∧
        (handleGenerateReportOnMessage st e).1.completedSteps = st.completedSteps ∧
        (handleGenerateReportOnMessage st e).2 = false)) := by
  refine ⟨⟨?_, ?_⟩, ⟨?_, ?_⟩, ⟨?_, ?_⟩, ⟨?_, ?_⟩⟩
  · rintro ⟨ht, hr⟩
    rcases Option.isSome_iff_exists.mp hr with ⟨r, hr2⟩
    simp [handleSourceCompaniesOnMessage, ht, hr2]
  · intro h
    by_cases ht : e.type = some "analysis_complete"
    · rcases hr : e.result with _ | r
      · simp [handleSourceCompaniesOnMessage, ht, hr]
      · exact absurd ⟨ht, by simp [hr]⟩ h
    · simp [handleSourceCompaniesOnMessage, ht]
  · rintro ⟨ht, hc⟩
    simp [handleScreenCompaniesOnMessage, ht, hc]
  · intro h
    by_cases ht : e.type = some "final_result"
    · by_cases hc : truthyContent e.content = true
      · exact absurd ⟨ht, hc⟩ h
      · simp only [Bool.not_eq_true] at hc
        simp [handleScreenCompaniesOnMessage, ht, hc]
    · simp [handleScreenCompaniesOnMessage, ht]
  · rintro ⟨ht, hr⟩
    rcases Option.isSome_iff_exists.mp hr with ⟨r, hr2⟩
    simp [handleAnalyzeRiskOnMessage, ht, hr2]
  · intro h
    by_cases ht : e.type = some "session_complete"
    · rcases hr : e.results with _ | r
      · simp [handleAnalyzeRiskOnMessage, ht, hr]
      · exact absurd ⟨ht, by simp [hr]⟩ h
    · simp [handleAnalyzeRiskOnMessage, ht]
  · intro ht
    simp [handleGenerateReportOnMessage, ht]
  · intro ht
    simp [handleGenerateReportOnMessage, ht]

/-- A concrete sourcing completion event, used by witnesses. -/
def evAnalysisComplete : WsEvent := { type := some "analysis_complete", result := some {} }

/-- A concrete thinking event, used by witnesses. -/
def evThinking : WsEvent := { type := some "agent_thinking", message := some "hi" }

/-- A concrete report completion event, used by witnesses. -/
def evReportComplete : WsEvent := { type := some "report_complete" }

theorem c2_completion_events_witness :
    (handleSourceCompaniesOnMessage {} evAnalysisComplete).2 = true ∧
    (handleSourceCompaniesOnMessage {} evThinking).2 = false ∧
    (handleGenerateReportOnMessage {} evReportComplete).2 = true :=
  ⟨(c2_completion_events {} [] evAnalysisComplete).1.1 ⟨rfl, rfl⟩ |>.2.2,
   (c2_completion_events {} [] evThinking).1.2
      (by rintro ⟨h, _⟩; injection h with h2; exact absurd h2 (by decide)) |>.2.2,
   (c2_completion_events {} [] evReportComplete).2.2.2.1 rfl |>.2.2⟩

/-- A concrete state with the loading flags raised, as they are while a step's
WebSocket is streaming. -/
def loadingState : WizState :=
  { isSubmitting := true, showStreamingPanel := true }

/-- C3 counterexample: after the risk-analysis `onerror` handler runs on a loading
state, the socket has not been closed by the handler and `isSubmitting` is still
`true` (and for sourcing and screening `onerror`, `isSubmitting` also survives),
refuting the claim that every `onerror` closes the socket and resets both flags. -/
theorem c3_onerror_counterexample :
    ¬((handleAnalyzeRiskOnError loadingState).2 = true ∧
      (handleAnalyzeRiskOnError loadingState).1.isSubmitting = false ∧
      (handleAnalyzeRiskOnError loadingState).1.showStreamingPanel = false) := by
  intro h
  exact absurd h.1 (by simp [handleAnalyzeRiskOnError])

/-- C3 amended: no `onerror` handler closes the socket; the sourcing and screening
handlers reset `showStreamingPanel` only and leave `isSubmitting` unchanged; the
report handler resets both flags; the risk-analysis handler changes nothing.
Both flags are reset instead by every `onclose` handler. -/
theorem c3_onerror_amended (st : WizState) :
    ((handleSourceCompaniesOnError st).2 = false ∧
     (handleSourceCompaniesOnError st).1.showStreamingPanel = false ∧
     (handleSourceCompaniesOnError st).1.isSubmitting = st.isSubmitting) ∧
    ((handleScreenCompaniesOnError st).2 = false ∧
     (handleScreenCompaniesOnError st).1.showStreamingPanel = false ∧
     (handleScreenCompaniesOnError st).1.isSubmitting = st.isSubmitting) ∧
    ((handleAnalyzeRiskOnError st).2 = false ∧
     (handleAnalyzeRiskOnError st).1 = st) ∧
    ((handleGenerateReportOnError st).2 = false ∧
     (handleGenerateReportOnError st).1.showStreamingPanel = false ∧
     (handleGenerateReportOnError st).1.isSubmitting = false) ∧
    ((handleSourceCompaniesOnClose st).isSubmitting = false ∧
     (handleSourceCompaniesOnClose st).showStreamingPanel = false ∧
     (handleScreenCompaniesOnClose st).isSubmitting = false ∧
     (handleScreenCompaniesOnClose st).showStreamingPanel = false ∧
     (handleAnalyzeRiskOnClose st).isSubmitting = false ∧
     (handleAnalyzeRiskOnClose st).showStreamingPanel = false ∧
     (handleGenerateReportOnClose st).isSubmitting = false ∧
     (handleGenerateReportOnClose st).showStreamingPanel = false) :=
  ⟨⟨rfl, rfl, rfl⟩, ⟨rfl, rfl, rfl⟩, ⟨rfl, rfl⟩, ⟨rfl, rfl, rfl⟩,
   rfl, rfl, rfl, rfl, rfl, rfl, rfl, rfl⟩

/-! ## C8: each socket appends only to its own step's event list -/

/-- The entry of `streamedEventsByStep` for a step index. -/
def stepStreamed (st : WizState) (s : Fin 4) : List WsEvent :=
  if s.val = 0 then st.streamed0 else if s.val = 1 then st.streamed1
  else if s.val = 2 then st.streamed2 else st.streamed3

/-- Component state together with the screening handler's closure-captured
`agentThinkingSteps` array. -/
structure RunState where
  wiz : WizState := {}
  agentThinkingSteps : List String := []

/-- Dispatch of one delivered WebSocket message to the step's `onmessage` handler. -/
def applyMessage (rs : RunState) (m : Fin 4 × WsEvent) : RunState :=
  if m.1.val = 0 then { rs with wiz := (handleSourceCompaniesOnMessage rs.wiz m.2).1 }
  else if m.1.val = 1 then
    let r := handleScreenCompaniesOnMessage rs.wiz rs.agentThinkingSteps m.2
    { wiz := r.1, agentThinkingSteps := r.2.1 }
  else if m.1.val = 2 then { rs with wiz := (handleAnalyzeRiskOnMessage rs.wiz m.2).1 }
  else { rs with wiz := (handleGenerateReportOnMessage rs.wiz m.2).1 }

theorem sourcing_streamed_frame (st : WizState) (e : WsEvent) :
    (handleSourceCompaniesOnMessage st e).1.streamed0 = st.streamed0 ++ [e] ∧
    (handleSourceCompaniesOnMessage st e).1.streamed1 = st.streamed1 ∧
    (handleSourceCompaniesOnMessage st e).1.streamed2 = st.streamed2 ∧
    (handleSourceCompaniesOnMessage st e).1.streamed3 = st.streamed3 := by
  unfold handleSourceCompaniesOnMessage
  split <;> [skip; simp]
  split <;> simp

theorem screening_streamed_frame (st : WizState) (th : List String) (e : WsEvent) :
    (handleScreenCompaniesOnMessage st th e).1.streamed1 = st.streamed1 ++ [e] ∧
    (handleScreenCompaniesOnMessage st th e).1.streamed0 = st.streamed0 ∧
    (handleScreenCompaniesOnMessage st th e).1.streamed2 = st.streamed2 ∧
    (handleScreenCompaniesOnMessage st th e).1.streamed3 = st.streamed3 := by
  unfold handleScreenCompaniesOnMessage
  repeat' split
  all_goals simp

theorem risk_streamed_frame (st : WizState) (e : WsEvent) :
    (handleAnalyzeRiskOnMessage st e).1.streamed2 = st.streamed2 ++ [e] ∧
    (handleAnalyzeRiskOnMessage st e).1.streamed0 = st.streamed0 ∧
    (handleAnalyzeRiskOnMessage st e).1.streamed1 = st.streamed1 ∧
    (handleAnalyzeRiskOnMessage st e).1.streamed3 = st.streamed3 := by
  unfold handleAnalyzeRiskOnMessage
  split <;> [skip; simp]
  split <;> simp

theorem report_streamed_frame (st : WizState) (e : WsEvent) :
    (handleGenerateReportOnMessage st e).1.streamed3 = st.streamed3 ++ [e] ∧
    (handleGenerateReportOnMessage st e).1.streamed0 = st.streamed0 ∧
    (handleGenerateReportOnMessage st e).1.streamed1 = st.streamed1 ∧
    (handleGenerateReportOnMessage st e).1.streamed2 = st.streamed2 := by
  unfold handleGenerateReportOnMessage
  split <;> simp

theorem applyMessage_streamed (rs : RunState) (m : Fin 4 × WsEvent) (s : Fin 4) :
    stepStreamed (applyMessage rs m).wiz s =
      stepStreamed rs.wiz s ++ if m.1 = s then [m.2] else [] := by
  rcases m with ⟨k, e⟩
  fin_cases k <;> fin_cases s <;>
    simp [applyMessage, stepStreamed, Fin.ext_iff,
      sourcing_streamed_frame rs.wiz e, (sourcing_streamed_frame rs.wiz e).2,
      screening_streamed_frame rs.wiz rs.agentThinkingSteps e,
      (screening_streamed_frame rs.wiz rs.agentThinkingSteps e).2,
      risk_streamed_frame rs.wiz e, (risk_streamed_frame rs.wiz e).2,
      report_streamed_frame rs.wiz e, (report_streamed_frame rs.wiz e).2] <;> decide

theorem run_streamed (msgs : List (Fin 4 × WsEvent)) (rs : RunState) (s : Fin 4) :
    stepStreamed (List.foldl applyMessage rs msgs).wiz s =
      stepStreamed rs.wiz s ++ (msgs.filter fun m => m.1 = s).map Prod.snd := by
  induction msgs generalizing rs with
  | nil => simp
  | cons m rest ih =>
    rw [List.foldl_cons, ih (applyMessage rs m), applyMessage_streamed]
    by_cases h : m.1 = s <;> simp [h, List.filter_cons]

/-- C8: dispatching one message appends it to exactly its own step's event list
and leaves the other steps' lists unchanged, and therefore after any sequence of
delivered messages, each step's list holds exactly that step's messages in
arrival order. -/
theorem c8_streamed_events_per_step (rs : RunState) (msgs : List (Fin 4 × WsEvent))
    (s : Fin 4) :
    (∀ m : Fin 4 × WsEvent, stepStreamed (applyMessage rs m).wiz s =
      stepStreamed rs.wiz s ++ if m.1 = s then [m.2] else []) ∧
    stepStreamed (List.foldl applyMessage rs msgs).wiz s =
      stepStreamed rs.wiz s ++ (msgs.filter fun m => m.1 = s).map Prod.snd :=
  ⟨fun m => applyMessage_streamed rs m s, run_streamed msgs rs s⟩

/-! ## C5: aggregating streamed events into thinking items

The aggregation `useEffect` (both the FundMandate one and the per-step
SourcingAgent one) cleans each newly arrived event's content and appends the
non-empty results to the aggregated list; it resets the aggregate when the
stream is cleared.  An event here is a thinking-stream event whose `content` or
`message` is a string. -/

/-- A streamed thinking event: the fields the aggregation effect reads. -/
structure StreamEvent where
  type : Option String := none
  content : Option String := none
  message : Option String := none
deriving DecidableEq

/-- An aggregated thinking item `{type, content}`. -/
structure ThinkingItem where
  type : String
  content : String
deriving DecidableEq

/-- The emoji ranges removed by the aggregation clean-up regex. -/
def emojiChar (c : Char) : Bool :=
  (0x1F300 ≤ c.val && c.val ≤ 0x1F9FF) || (0x2600 ≤ c.val && c.val ≤ 0x26FF) ||
  (0x2700 ≤ c.val && c.val ≤ 0x27BF) || (0x1F600 ≤ c.val && c.val ≤ 0x1F64F) ||
  (0x1F680 ≤ c.val && c.val ≤ 0x1F6FF)

/-- The `^[^\w\s]*\s*` strip: leading characters that are neither word characters
nor whitespace, then leading whitespace. -/
def stripLeadingJunk (cs : List Char) : List Char :=
  (cs.dropWhile fun c => !(jsWordChar c) && !(jsSpace c)).dropWhile jsSpace

/-- The `^STEP\s*\d+:\s*` (case-insensitive) strip of the aggregation effect:
`STEP`, optional whitespace, digits, a colon, then whitespace. -/
def stripStepLabel (cs : List Char) : List Char :=
  match cs with
  | s :: t :: e :: p :: rest =>
    if s.toLower == 's' && t.toLower == 't' && e.toLower == 'e' && p.toLower == 'p' then
      let afterSpaces := rest.dropWhile jsSpace
      if (afterSpaces.takeWhile Char.isDigit).isEmpty then cs
      else
        match afterSpaces.dropWhile Char.isDigit with
        | c :: r2 => if c == ':' then r2.dropWhile jsSpace else cs
        | [] => cs
    else cs
  | _ => cs

/-- The aggregation effect's clean-up pipeline: strip leading non-word junk, strip
a `STEP n:` label, remove emoji, then trim. -/
def cleanThinkingContent (s : String) : String :=
  String.mk (trimChars ((stripStepLabel (stripLeadingJunk s.toList)).filter
    fun c => !(emojiChar c)))

/-- One event's contribution: `{type: event.type || 'agent_thinking', content:
clean}` when the cleaned `content || message || ''` is non-empty, nothing
otherwise. -/
def processThinkingEvent (event : StreamEvent) : Option ThinkingItem :=
  let content := (jsOrStr event.content event.message).getD ""
  let eventType := (jsOrStr event.type (some "agent_thinking")).getD "agent_thinking"
  let clean := cleanThinkingContent content
  if clean == "" then none else some { type := eventType, content := clean }

/-- Embedding of the aggregation `useEffect` body: on an empty stream reset the
aggregate and the processed count; on new events append their cleaned non-empty
forms and advance the count; otherwise change nothing.  Returns the new
aggregated list and processed count. -/
def aggregateStreamingEffect (streamingEvents : List StreamEvent) (prevCount : Nat)
    (aggregatedThinking : List ThinkingItem) : List ThinkingItem × Nat :=
  if streamingEvents.length = 0 then ([], 0)
  else if streamingEvents.length > prevCount then
    let newEvents := streamingEvents.drop prevCount
    let newEventData := newEvents.filterMap processThinkingEvent
    (aggregatedThinking ++ newEventData, streamingEvents.length)
  else (aggregatedThinking, prevCount)

/-- C5: when the stream is empty the aggregate is reset; and whenever the
aggregate holds the cleaned forms of the first `prevCount` events, after the
effect it holds, in order, the cleaned forms of all events processed so far —
each kept event appended at the end, empty-content events dropped. -/
theorem c5_aggregation_invariant :
    (∀ (p : Nat) (a : List ThinkingItem), aggregateStreamingEffect [] p a = ([], 0)) ∧
    (∀ (events : List StreamEvent) (p : Nat) (a : List ThinkingItem),
      p ≤ events.length →
      a = (events.take p).filterMap processThinkingEvent →
      aggregateStreamingEffect events p a =
        (events.filterMap processThinkingEvent, events.length)) := by
  constructor
  · intro p a
    rfl
  · intro events p a hp ha
    unfold aggregateStreamingEffect
    rcases Nat.eq_or_lt_of_le hp with heq | hlt
    · have hng : ¬ events.length > p := by omega
      rcases Nat.eq_zero_or_pos events.length with hz | hpos
      · have : events = [] := List.length_eq_zero.mp hz
        subst this
        simp
      · have hnz : ¬ events.length = 0 := by omega
        simp only [hnz, if_false, hng, if_false]
        rw [ha, heq, List.take_length]
    · have hnz : ¬ events.length = 0 := by omega
      have hg : events.length > p := hlt
      simp only [hnz, if_false, hg, if_true]
      rw [ha, ← List.filterMap_append, List.take_append_drop]

theorem c5_aggregation_invariant_witness :
    (aggregateStreamingEffect [] 2 [⟨"agent_thinking", "stale"⟩] = ([], 0)) ∧
    (1 ≤ ([{ content := some "old" }, { type := some "tool_use", message := some "✨ STEP 2: run" }] :
        List StreamEvent).length ∧
     aggregateStreamingEffect
        [{ content := some "old" }, { type := some "tool_use", message := some "✨ STEP 2: run" }] 1
        [⟨"agent_thinking", "old"⟩] =
      ([⟨"agent_thinking", "old"⟩, ⟨"tool_use", "run"⟩], 2)) := by
  refine ⟨c5_aggregation_invariant.1 2 [⟨"agent_thinking", "stale"⟩], by decide, ?_⟩
  have h := c5_aggregation_invariant.2
    [{ content := some "old" }, { type := some "tool_use", message := some "✨ STEP 2: run" }] 1
    [⟨"agent_thinking", "old"⟩] (by decide) (by decide)
  rw [h]
  decide

/-! ## C6: `groupedThinking` (AgentThinkingAccordion)

`aggregatedThinking` items are either bare strings or `{type, content}` records;
`groupedThinking` chunks consecutive items with the same display type. -/

/-- An `EventItem` of the accordion: a bare string or a `{type, content}` record. -/
inductive EventItem where
  | str (s : String)
  | obj (type : String) (content : String)
deriving DecidableEq

/-- The `\b\w` title-casing: uppercase each word character that starts a word.  The
boolean argument tracks whether the previous character was a word character. -/
def titleCaseChars : Bool → List Char → List Char
  | _, [] => []
  | prevWord, c :: rest =>
    (if jsWordChar c && !prevWord then c.toUpper else c) :: titleCaseChars (jsWordChar c) rest

/-- Embedding of `getEventType`: a bare string displays as `Agent Thinking`; a
record's truthy `type` has underscores replaced by spaces and words title-cased,
and a falsy `type` also displays as `Agent Thinking`. -/
def getEventType : EventItem → String
  | EventItem.str _ => "Agent Thinking"
  | EventItem.obj t _ =>
    if t == "" then "Agent Thinking"
    else String.mk (titleCaseChars false (t.toList.map fun c => if c == '_' then ' ' else c))

/-- The display type of a group, read from its first item (as the source's
`getEventType(currentGroup[0])`). -/
def groupType : List EventItem → String
  | [] => ""
  | a :: _ => getEventType a

/-- Embedding of the `groupedThinking` loop: `currentGroup` and `groups` are the
loop's accumulators; the final non-empty `currentGroup` is flushed at the end. -/
def groupLoop : List EventItem → List EventItem → List (List EventItem) → List (List EventItem)
  | [], currentGroup, groups =>
    if currentGroup.isEmpty then groups else groups ++ [currentGroup]
  | item :: rest, [], groups => groupLoop rest [item] groups
  | item :: rest, c :: cs, groups =>
    if getEventType item == getEventType c then
      groupLoop rest ((c :: cs) ++ [item]) groups
    else
      groupLoop rest [item] (groups ++ [c :: cs])

/-- Embedding of `groupedThinking`. -/
def groupedThinking (aggregatedThinking : List EventItem) : List (List EventItem) :=
  groupLoop aggregatedThinking [] []

example :
    groupedThinking [EventItem.obj "tool_use" "a", EventItem.obj "tool_use" "b",
      EventItem.str "c", EventItem.obj "" "d"] =
    [[EventItem.obj "tool_use" "a", EventItem.obj "tool_use" "b"],
     [EventItem.str "c", EventItem.obj "" "d"]] := by decide

/-- Uniformity of a group: every item displays the group's (head's) type. -/
def uniformGroup (g : List EventItem) : Prop :=
  ∀ a ∈ g, getEventType a = groupType g

theorem groupLoop_flatten (l : List EventItem) :
    ∀ (cur : List EventItem) (groups : List (List EventItem)),
      (groupLoop l cur groups).flatten = groups.flatten ++ cur ++ l := by
  induction l with
  | nil =>
    intro cur groups
    rcases cur with _ | ⟨c, cs⟩ <;> simp [groupLoop]
  | cons item rest ih =>
    intro cur groups
    rcases cur with _ | ⟨c, cs⟩
    · simp only [groupLoop]
      rw [ih]
      simp
    · simp only [groupLoop]
      by_cases h : (getEventType item == getEventType c) = true
      · rw [if_pos h, ih]
        simp
      · rw [if_neg h, ih]
        simp

theorem groupLoop_ne_nil (l : List EventItem) :
    ∀ cur groups, (∀ g ∈ groups, g ≠ ([] : List EventItem)) →
      ∀ g ∈ groupLoop l cur groups, g ≠ [] := by
  induction l with
  | nil =>
    intro cur groups hg g hmem
    rcases cur with _ | ⟨c, cs⟩ <;> simp only [groupLoop] at hmem
    · simp at hmem
      exact hg g hmem
    · simp at hmem
      rcases hmem with h | h
      · exact hg g h
      · subst h
        simp
  | cons item rest ih =>
    intro cur groups hg g hmem
    rcases cur with _ | ⟨c, cs⟩ <;> simp only [groupLoop] at hmem
    · exact ih [item] groups hg g hmem
    · by_cases h : (getEventType item == getEventType c) = true
      · rw [if_pos h] at hmem
        exact ih _ groups hg g hmem
      · rw [if_neg h] at hmem
        refine ih [item] _ ?_ g hmem
        intro g2 hg2
        simp at hg2
        rcases hg2 with h2 | h2
        · exact hg g2 h2
        · subst h2
          simp

theorem groupLoop_uniform (l : List EventItem) :
    ∀ cur groups, (∀ g ∈ groups, uniformGroup g) → uniformGroup cur →
      ∀ g ∈ groupLoop l cur groups, uniformGroup g := by
  induction l with
  | nil =>
    intro cur groups hg hcur g hmem
    rcases cur with _ | ⟨c, cs⟩ <;> simp only [groupLoop] at hmem
    · simp at hmem
      exact hg g hmem
    · simp at hmem
      rcases hmem with h | h
      · exact hg g h
      · subst h
        exact hcur
  | cons item rest ih =>
    intro cur groups hg hcur g hmem
    rcases cur with _ | ⟨c, cs⟩ <;> simp only [groupLoop] at hmem
    · refine ih [item] groups hg ?_ g hmem
      intro a ha
      simp at ha
      subst ha
      rfl
    · by_cases h : (getEventType item == getEventType c) = true
      · rw [if_pos h] at hmem
        refine ih _ groups hg ?_ g hmem
        intro a ha
        have hgt : groupType ((c :: cs) ++ [item]) = getEventType c := rfl
        rw [hgt]
        rcases List.mem_append.mp ha with h2 | h2
        · have := hcur a h2
          simpa [groupType] using this
        · simp at h2
          subst h2
          exact eq_of_beq h
      · rw [if_neg h] at hmem
        refine ih [item] _ ?_ ?_ g hmem
        · intro g2 hg2
          simp at hg2
          rcases hg2 with h2 | h2
          · exact hg g2 h2
          · subst h2
            exact hcur
        · intro a ha
          simp at ha
          subst ha
          rfl

theorem groupLoop_chain (l : List EventItem) :
    ∀ cur groups, (cur = [] → groups = []) →
      List.Chain' (fun g h => groupType g ≠ groupType h)
        (groups ++ if cur.isEmpty then [] else [cur]) →
      List.Chain' (fun g h => groupType g ≠ groupType h) (groupLoop l cur groups) := by
  induction l with
  | nil =>
    intro cur groups hemp hch
    rcases cur with _ | ⟨c, cs⟩ <;> simp only [groupLoop]
    · simpa using hch
    · simpa using hch
  | cons item rest ih =>
    intro cur groups hemp hch
    rcases cur with _ | ⟨c, cs⟩ <;> simp only [groupLoop]
    · have hgroups : groups = [] := hemp rfl
      subst hgroups
      refine ih [item] [] (by intro hcon; exact absurd hcon (by simp)) ?_
      simp
    · by_cases h : (getEventType item == getEventType c) = true
      · rw [if_pos h]
        refine ih _ groups (by intro hcon; exact absurd hcon (by simp)) ?_
        simp only [List.isEmpty, if_false] at hch ⊢
        rcases List.chain'_append.mp (by simpa using hch) with ⟨h1, _, h3⟩
        refine List.chain'_append.mpr ⟨h1, List.chain'_singleton _, ?_⟩
        intro x hx y hy
        simp at hy
        subst hy
        exact h3 x hx (c :: cs) (by simp)
      · rw [if_neg h]
        refine ih [item] _ (by intro hcon; exact absurd hcon (by simp)) ?_
        simp only [List.isEmpty, if_false] at hch ⊢
        refine List.chain'_append.mpr ⟨by simpa using hch, List.chain'_singleton _, ?_⟩
        intro x hx y hy
        simp at hy
        subst hy
        rw [List.getLast?_concat] at hx
        simp at hx
        subst hx
        intro hcon
        have : getEventType item = getEventType c := by
          simpa [groupType] using hcon.symm
        exact absurd (beq_iff_eq.mpr this) (by simpa using h)

/-- C6: `groupedThinking` partitions its input into maximal runs of items with the
same display type: the groups concatenate back to the input, every group is
non-empty and type-uniform, and adjacent groups have different display types. -/
theorem c6_groupedThinking_partition (l : List EventItem) :
    (groupedThinking l).flatten = l ∧
    (∀ g ∈ groupedThinking l, g ≠ []) ∧
    (∀ g ∈ groupedThinking l, ∀ x ∈ g, ∀ y ∈ g, getEventType x = getEventType y) ∧
    List.Chain' (fun g h => groupType g ≠ groupType h) (groupedThinking l) := by
  refine ⟨?_, ?_, ?_, ?_⟩
  · have h := groupLoop_flatten l [] []
    simpa [groupedThinking] using h
  · exact fun g hg => groupLoop_ne_nil l [] [] (by simp) g hg
  · intro g hg x hx y hy
    have hu := groupLoop_uniform l [] [] (by simp)
      (by intro a ha; exact absurd ha (by simp)) g hg
    rw [hu x hx, hu y hy]
  · exact groupLoop_chain l [] [] (fun _ => rfl) (by simp)

/-- A concrete aggregated list exercising both constructors, for the C6 witness. -/
def c6DemoList : List EventItem :=
  [EventItem.obj "tool_use" "a", EventItem.obj "tool_use" "b", EventItem.str "c"]

theorem c6_groupedThinking_partition_witness :
    (groupedThinking c6DemoList).flatten = c6DemoList ∧
    [EventItem.obj "tool_use" "a", EventItem.obj "tool_use" "b"] ≠ ([] : List EventItem) ∧
    getEventType (EventItem.obj "tool_use" "a") = getEventType (EventItem.obj "tool_use" "b") :=
  ⟨(c6_groupedThinking_partition c6DemoList).1,
   (c6_groupedThinking_partition c6DemoList).2.1
     [EventItem.obj "tool_use" "a", EventItem.obj "tool_use" "b"] (by decide),
   (c6_groupedThinking_partition c6DemoList).2.2.1
     [EventItem.obj "tool_use" "a", EventItem.obj "tool_use" "b"] (by decide)
     (EventItem.obj "tool_use" "a") (by decide) (EventItem.obj "tool_use" "b") (by decide)⟩

/-- A concrete state with sourcing parameters, a sourcing response and
`currentStep = 3`, for the C1 witness. -/
def c1DemoState : WizState :=
  { sourcingList := [("geography", "US")],
    filterResponse := some { companies := some { qualified := some [] } },
    currentStep := 3 }

theorem c1_step_gating_witness :
    canNavigateToStep c1DemoState 1 = true ∧
    canNavigateToStep c1DemoState 5 = false ∧
    canProceedStep c1DemoState = true :=
  ⟨(c1_step_gating c1DemoState).2.1.mpr ⟨by decide, ⟨[], rfl⟩⟩,
   (c1_step_gating c1DemoState).2.2.2.2.1 5 (by decide),
   (c1_step_gating c1DemoState).2.2.2.2.2.2.2.2 rfl⟩
